import Mathlib

/-!
Verification of the derived-metrics pipeline in `src/plotting.py`
(function `plot_cftc_data`): net-position derivation from the detected
reporting schema, week-over-week change and percent change, rolling
percentile ranks over 260/104/52-record trailing windows, year-to-date
percentile rank, date-range windowing, and per-point chart annotations.

The pandas frame is embedded shallowly: a numeric column is a
`List (Option ℚ)` (with `none` for NaN), a frame is an association list
from column name to column, and dates are (year, day-of-year) pairs
ordered lexicographically.  Division by zero follows IEEE semantics
(signed infinity / NaN), captured by the `FV` type for the percent-change
field.  `.round(1)` is modelled by rounding `10 * x` to the nearest
integer (`round1`); the convention at exact midpoints is idealised as
round-half-up.
-/

namespace COT

/-- Calendar date: year and 0-based ordinal day within the year, ordered
lexicographically.  Models the pandas datetime values in the `date`
column; `⟨y, 0⟩` plays the role of January 1 of year `y`. -/
structure Date where
  year : Nat
  doy : Nat
deriving DecidableEq, Repr

/-- Lexicographic order on dates, as pandas datetime comparison. -/
def Date.le (a b : Date) : Prop :=
  a.year < b.year ∨ (a.year = b.year ∧ a.doy ≤ b.doy)

instance Date.decLe : ∀ a b : Date, Decidable (Date.le a b) := fun a b => by
  unfold Date.le
  infer_instance

/-- Larger of two dates (`pandas .max()` combines dates with this). -/
def Date.sup (a b : Date) : Date := if Date.le a b then b else a

/-- A cell of a numeric column: `none` models NaN. -/
abbrev Val := Option ℚ

/-- Result type for the percent-change column.  pandas computes it in
floating point, so a zero previous value produces a signed infinity and
`0/0` produces NaN; `FV` records those outcomes exactly. -/
inductive FV where
  | nan : FV
  | inf : FV
  | ninf : FV
  | num : ℚ → FV
deriving DecidableEq, Repr

/-- Rounding to one decimal place, modelling `.round(1)`. -/
def round1 (q : ℚ) : ℚ := ((round (q * 10) : ℤ) : ℚ) / 10

/-- Forward fill with an explicit carry, one column cell at a time;
models `DataFrame.fillna(method='ffill')` restricted to one column. -/
def ffillAux : Val → List Val → List Val
  | _, [] => []
  | carry, v :: vs =>
    match v with
    | some q => some q :: ffillAux (some q) vs
    | none => carry :: ffillAux carry vs

/-- Forward fill of a whole column (leading NaNs stay NaN). -/
def ffillCol (vs : List Val) : List Val := ffillAux none vs

/-- Absolute change from the previous record, `Series.diff()` at index
`i`: undefined at `i = 0` and when either operand is missing. -/
def diffAt (vs : List Val) (i : Nat) : Val :=
  if i = 0 then none
  else
    match vs.getD (i - 1) none, vs.getD i none with
    | some p, some c => some (c - p)
    | _, _ => none

/-- Percent change from the previous record,
`Series.pct_change().multiply(100).round(1)` at index `i`.  A zero
previous value follows IEEE float division: positive current value gives
`+inf`, negative gives `-inf`, zero gives NaN. -/
def pctChangeAt (vs : List Val) (i : Nat) : FV :=
  if i = 0 then FV.nan
  else
    match vs.getD (i - 1) none, vs.getD i none with
    | some p, some c =>
      if p = 0 then
        if 0 < c then FV.inf else if c < 0 then FV.ninf else FV.nan
      else FV.num (round1 ((c / p - 1) * 100))
    | _, _ => FV.nan

/-- Average rank (the pandas `Series.rank(method='average')` convention)
of value `v` within the multiset `qs` (which contains `v`): ties share
the mean of the ordinal ranks they occupy. -/
def rankAvg (qs : List ℚ) (v : ℚ) : ℚ :=
  (qs.countP (fun x => decide (x < v)) : ℚ) +
    ((qs.countP (fun x => decide (x = v)) : ℚ) + 1) / 2

/-- The trailing window of `w` cells ending at (and including) index
`i`, as passed by `Series.rolling(w)` to its aggregation function. -/
def windowSlice (vs : List Val) (w i : Nat) : List Val :=
  (List.range w).map (fun k => vs.getD (i + 1 - w + k) none)

/-- Rolling percentile rank over trailing window `w`, modelling
`rolling(w).apply(lambda x: pd.Series(x).rank(pct=True).iloc[-1] * 100).round(1)`:
undefined until the window is full and whenever the window contains a
missing value (the default `min_periods = w`); otherwise the average
rank of the last value divided by the window size, as a percentage,
rounded to one decimal. -/
def rollRank (vs : List Val) (w i : Nat) : Val :=
  if i + 1 < w then none
  else
    let win := windowSlice vs w i
    if win.all Option.isSome then
      match vs.getD i none with
      | some v => some (round1 (rankAvg win.reduceOption v / (w : ℚ) * 100))
      | none => none
    else none

/-- The `_pct_5yr` column: computed only when the series has at least
260 records, otherwise the whole column is NaN. -/
def pct5yr (vs : List Val) (i : Nat) : Val :=
  if 260 ≤ vs.length then rollRank vs 260 i else none

/-- The `_pct_2yr` column (window 104). -/
def pct2yr (vs : List Val) (i : Nat) : Val :=
  if 104 ≤ vs.length then rollRank vs 104 i else none

/-- The `_pct_1yr` column (window 52). -/
def pct1yr (vs : List Val) (i : Nat) : Val :=
  if 52 ≤ vs.length then rollRank vs 52 i else none

/-- Maximum of a list of dates, `data['date'].max()` (default for the
empty series is the smallest date). -/
def maxDate (ds : List Date) : Date := ds.foldl Date.sup ⟨0, 0⟩

/-- January 1 of year `y` (`pd.to_datetime(f'{y}-01-01')`). -/
def jan1 (y : Nat) : Date := ⟨y, 0⟩

/-- Indices of the records with `date >= ytd_start`, where `ytd_start`
is January 1 of the year of the maximal date (`ytd_data`). -/
def ytdIdx (ds : List Date) : List Nat :=
  (List.range ds.length).filter
    (fun j => decide (Date.le (jan1 (maxDate ds).year) (ds.getD j ⟨0, 0⟩)))

/-- The non-missing values of a column restricted to the year-to-date
rows (`ytd_values` with NaN dropped, as `Series.rank` drops NaN both
from the ranking and from the denominator). -/
def ytdVals (ds : List Date) (vs : List Val) : List ℚ :=
  ((ytdIdx ds).map (fun j => vs.getD j none)).reduceOption

/-- The `_pct_ytd` column: when at least two records fall on or after
January 1 of the maximal date's year, each such record with a
non-missing value gets `ytd_values.rank(pct=True) * 100` (average rank
among ALL the year-to-date values, unrounded); every other cell — and
the whole column when fewer than two such records exist — is NaN. -/
def ytdRank (ds : List Date) (vs : List Val) (i : Nat) : Val :=
  if 2 ≤ (ytdIdx ds).length then
    if i ∈ ytdIdx ds then
      match vs.getD i none with
      | some v =>
        some (rankAvg (ytdVals ds vs) v / ((ytdVals ds vs).length : ℚ) * 100)
      | none => none
    else none
  else none

/-- All derived fields of one record for one column
(`_change`, `_change_pct`, `_pct_5yr`, `_pct_2yr`, `_pct_1yr`,
`_pct_ytd`). -/
structure Enriched where
  change : Val
  changePct : FV
  pct5 : Val
  pct2 : Val
  pct1 : Val
  pctYtd : Val
deriving DecidableEq, Repr

/-- The derived fields at index `i`, computed over the FULL series
(lines 62-105 run before the date-range filter). -/
def enrichAt (ds : List Date) (vs : List Val) (i : Nat) : Enriched :=
  ⟨diffAt vs i, pctChangeAt vs i, pct5yr vs i, pct2yr vs i, pct1yr vs i,
    ytdRank ds vs i⟩

/-- Inclusive date-range membership, the boolean mask
`(date >= selected_start_date) & (date <= selected_end_date)`. -/
def inRange (s e d : Date) : Bool :=
  decide (Date.le s d) && decide (Date.le d e)

/-- Indices of the records selected by the date-range filter. -/
def windowIdx (ds : List Date) (s e : Date) : List Nat :=
  (List.range ds.length).filter (fun j => inRange s e (ds.getD j ⟨0, 0⟩))

/-- The windowed enriched view for one column (`plot_data_change`):
the rows of the fully enriched series whose date lies in range, keyed by
their position in the full series. -/
def windowedEnriched (ds : List Date) (vs : List Val) (s e : Date) :
    List (Nat × Enriched) :=
  (windowIdx ds s e).map (fun j => (j, enrichAt ds vs j))

/-- Whether a percent-change cell is non-NaN (`not pd.isna(change_pct)`;
signed infinities are NOT NaN). -/
def notNan : FV → Bool
  | FV.nan => false
  | _ => true

/-- A chart annotation: either a per-point change label
(date, plotted value, change-percent text) or the single hidden
explanatory label used when more than 90 periods are displayed.
Pure layout fields (font, anchors, subplot axis references) are
presentation-only and omitted. -/
inductive Ann where
  | point : Date → Val → FV → Ann
  | explanation : Ann
deriving DecidableEq, Repr

/-- The windowed data of one selected column: dates, plotted values and
percent changes of the in-range rows (`plot_data_change['date']`,
`plot_data_change[col]`, `plot_data_change[f'{col}_change_pct']`). -/
structure WinCol where
  dates : List Date
  vals : List Val
  cpcts : List FV
deriving DecidableEq, Repr

/-- Annotations of one selected column: one per record whose
percent-change cell is non-NaN (`if not pd.isna(change_pct)`). -/
def annsForCol (w : WinCol) : List Ann :=
  (w.dates.zip (w.vals.zip w.cpcts)).filterMap (fun p =>
    match p.2.2 with
    | FV.nan => none
    | c => some (Ann.point p.1 p.2.1 c))

/-- The annotation list of lines 308-355: when at most 90 periods are
displayed, the per-point annotations of every selected column in order;
otherwise a single hidden explanatory annotation. -/
def buildAnnotations (cols : List WinCol) (numPeriods : Nat) : List Ann :=
  if numPeriods ≤ 90 then (cols.map annsForCol).flatten
  else [Ann.explanation]

/-- A frame column. -/
abbrev ColS := List Val

/-- First association of a column name in a frame. -/
def lookupCol : List (String × ColS) → String → Option ColS
  | [], _ => none
  | p :: ps, c => if p.1 = c then some p.2 else lookupCol ps c

/-- A pandas DataFrame restricted to what the pipeline reads: named
numeric columns (column names are unique in pandas; `lookupCol` takes
the first association). -/
structure Frame where
  data : List (String × ColS)
deriving DecidableEq, Repr

/-- Column access (`data[c]` as an `Option`). -/
def Frame.getCol (f : Frame) (c : String) : Option ColS := lookupCol f.data c

/-- Column-presence test (`c in data.columns`). -/
def Frame.hasCol (f : Frame) (c : String) : Bool := (lookupCol f.data c).isSome

/-- Column read with a default (only used under a presence guard). -/
def Frame.colD (f : Frame) (c : String) : ColS := (f.getCol c).getD []

/-- Column assignment `data[c] = v`: replaces the column when the name
exists, appends it to the right otherwise. -/
def Frame.setCol (f : Frame) (c : String) (v : ColS) : Frame :=
  if (lookupCol f.data c).isSome then
    ⟨f.data.map (fun p => if p.1 = c then (c, v) else p)⟩
  else ⟨f.data ++ [(c, v)]⟩

/-- Elementwise column difference with NaN propagation
(`data[a] - data[b]`). -/
def colSub (a b : ColS) : ColS :=
  List.zipWith (fun x y =>
    match x, y with
    | some p, some q => some (p - q)
    | _, _ => none) a b

/-- The two recognised reporting schemas plus the unrecognised case. -/
inductive Schema where
  | disaggregated : Schema
  | legacy : Schema
  | unknown : Schema
deriving DecidableEq, Repr

/-- Schema detection as the code performs it (lines 30-47): the
disaggregated branch requires BOTH `producer_merchant_processor_user`
columns, the legacy branch BOTH `commercial` columns. -/
def detectSchema (f : Frame) : Schema :=
  if f.hasCol "producer_merchant_processor_user_longs" &&
      f.hasCol "producer_merchant_processor_user_shorts" then
    Schema.disaggregated
  else if f.hasCol "commercial_longs" && f.hasCol "commercial_shorts" then
    Schema.legacy
  else Schema.unknown

/-- Schema detection as the spec words it (refinement comparison only):
keyed on the presence of the `_longs` column alone. -/
def detectSchemaSpec (f : Frame) : Schema :=
  if f.hasCol "producer_merchant_processor_user_longs" then
    Schema.disaggregated
  else if f.hasCol "commercial_longs" then Schema.legacy
  else Schema.unknown

/-- One conditional net-position column: added only when both source
columns are present. -/
def addNetAux (f : Frame) (name lc sc : String) : Frame :=
  if f.hasCol lc && f.hasCol sc then
    f.setCol name (colSub (f.colD lc) (f.colD sc))
  else f

/-- Net-position derivation, lines 28-60: per detected schema the `Net`
columns, then `spreading` subtracted from `Large Speculator Net` when
both are present. -/
def addNets (f : Frame) : Frame :=
  let f1 :=
    match detectSchema f with
    | Schema.disaggregated =>
      let g := f.setCol "Commercial Net"
        (colSub (f.colD "producer_merchant_processor_user_longs")
          (f.colD "producer_merchant_processor_user_shorts"))
      let g := addNetAux g "Large Speculator Net"
        "money_manager_longs" "money_manager_shorts"
      let g := addNetAux g "Other Reportables Net"
        "other_reportable_longs" "other_reportable_shorts"
      addNetAux g "Swap Dealer Net" "swap_dealer_longs" "swap_dealer_shorts"
    | Schema.legacy =>
      let g := f.setCol "Commercial Net"
        (colSub (f.colD "commercial_longs") (f.colD "commercial_shorts"))
      let g := addNetAux g "Large Speculator Net"
        "non_commercial_longs" "non_commercial_shorts"
      addNetAux g "Small Speculator Net"
        "non_reportable_longs" "non_reportable_shorts"
    | Schema.unknown => f
  if f1.hasCol "spreading" && f1.hasCol "Large Speculator Net" then
    f1.setCol "Large Speculator Net"
      (colSub (f1.colD "Large Speculator Net") (f1.colD "spreading"))
  else f1

/-- A raw input row: report date plus the tuple of raw numeric cells. -/
structure RawRow where
  date : Date
  vals : List Val
deriving DecidableEq, Repr

/-- Row order used by `data.sort_values('date')`. -/
def rowLe (a b : RawRow) : Prop := Date.le a.date b.date

instance rowLe.dec : DecidableRel rowLe := fun a b => Date.decLe a.date b.date

/-- Sorting the rows by date. -/
def sortRows (l : List RawRow) : List RawRow := List.insertionSort rowLe l

/-- Forward fill of one row's cells from the carried previous cells
(a missing carry leaves the cell unchanged). -/
def ffillVals : List Val → List Val → List Val
  | _, [] => []
  | [], v :: vs => v :: ffillVals [] vs
  | c :: cs, v :: vs =>
    (match v with
     | some q => some q
     | none => c) :: ffillVals cs vs

/-- Row-level forward fill, `fillna(method='ffill')` on the sorted
frame, carrying the last filled row. -/
def ffillRows : List Val → List RawRow → List RawRow
  | _, [] => []
  | carry, r :: rs =>
    let v := ffillVals carry r.vals
    ⟨r.date, v⟩ :: ffillRows v rs

/-- Lines 18-26: sort by date, then forward fill. -/
def prepareRows (l : List RawRow) : List RawRow := ffillRows [] (sortRows l)

/-- The date column of a row list. -/
def datesOf (rows : List RawRow) : List Date := rows.map RawRow.date

/-- The `k`-th raw column of a row list. -/
def colOf (rows : List RawRow) (k : Nat) : List Val :=
  rows.map (fun r => r.vals.getD k none)

/-- The enriched series of raw input `l`: derived fields of column `k`
at row `i` after sorting and forward filling. -/
def enrichSeries (l : List RawRow) (k i : Nat) : Enriched :=
  enrichAt (datesOf (prepareRows l)) (colOf (prepareRows l) k) i

/-- Pointwise order on optional ranks: two undefined cells are related,
two defined cells compare their values. -/
def optLe : Val → Val → Prop
  | none, none => True
  | some a, some b => a ≤ b
  | _, _ => False

/-- A 260-record fully defined series with pairwise distinct values
0, 1, ..., 259, used as a concrete input. -/
def exL260 : List Val := (List.range 260).map (fun (k : Nat) => some (k : ℚ))

/-- A concrete date column spanning two calendar years (two records in
2023, two in 2024). -/
def exDs : List Date := [⟨2023, 0⟩, ⟨2023, 7⟩, ⟨2024, 0⟩, ⟨2024, 7⟩]

/-- The concrete value column paired with `exDs`. -/
def exVs : List Val := [some 1, some 2, some 3, some 4]

theorem Date.le_total' (a b : Date) : Date.le a b ∨ Date.le b a := by
  unfold Date.le
  omega

theorem Date.le_trans' {a b c : Date} (h1 : Date.le a b) (h2 : Date.le b c) :
    Date.le a c := by
  unfold Date.le at *
  omega

theorem Date.le_antisymm' {a b : Date} (h1 : Date.le a b) (h2 : Date.le b a) :
    a = b := by
  cases a
  cases b
  simp only [Date.le, Date.mk.injEq] at *
  omega

instance rowLe.total : IsTotal RawRow rowLe :=
  ⟨fun a b => Date.le_total' a.date b.date⟩

instance rowLe.trans : IsTrans RawRow rowLe :=
  ⟨fun _ _ _ h1 h2 => Date.le_trans' h1 h2⟩

theorem round1_mono {a b : ℚ} (h : a ≤ b) : round1 a ≤ round1 b := by
  unfold round1
  have : round (a * 10) ≤ round (b * 10) := by
    rw [round_eq, round_eq]
    exact Int.floor_mono (by linarith)
  have h10 : ((round (a * 10) : ℤ) : ℚ) ≤ ((round (b * 10) : ℤ) : ℚ) := by
    exact_mod_cast this
  linarith

theorem getD_set_ne' {α : Type} (l : List α) (i j : Nat) (x d : α)
    (h : i ≠ j) : (l.set i x).getD j d = l.getD j d := by
  simp [List.getD_eq_getElem?_getD, List.getElem?_set_ne h]

theorem getD_set_self' {α : Type} (l : List α) (i : Nat) (x d : α)
    (h : i < l.length) : (l.set i x).getD i d = x := by
  simp [List.getD_eq_getElem?_getD, List.getElem?_set_self, h]

theorem lt_length_of_getD_some {vs : List Val} {i : Nat} {v : ℚ}
    (h : vs.getD i none = some v) : i < vs.length := by
  by_contra hc
  rw [List.getD_eq_getElem?_getD, List.getElem?_eq_none (by omega)] at h
  simp at h

theorem length_filterMap_eq_countP {α β : Type} (f : α → Option β)
    (l : List α) :
    (l.filterMap f).length = l.countP (fun a => (f a).isSome) := by
  induction l with
  | nil => rfl
  | cons a t ih =>
    rw [List.filterMap_cons, List.countP_cons]
    cases hfa : f a <;> simp [hfa, ih]

theorem countP_le_split (qs : List ℚ) (v : ℚ) :
    qs.countP (fun x => decide (x ≤ v)) =
      qs.countP (fun x => decide (x < v)) +
        qs.countP (fun x => decide (x = v)) := by
  induction qs with
  | nil => rfl
  | cons a t ih =>
    simp only [List.countP_cons, ih]
    rcases lt_trichotomy a v with h | h | h
    · simp [h, le_of_lt h, ne_of_lt h]
      omega
    · subst h
      simp
      omega
    · simp [not_le_of_lt h, not_lt_of_lt h, (ne_of_lt h).symm]

theorem countP_eq_one_of_nodup_mem {qs : List ℚ} {v : ℚ}
    (hnd : qs.Nodup) (hm : v ∈ qs) :
    qs.countP (fun x => decide (x = v)) = 1 := by
  induction qs with
  | nil => simp at hm
  | cons a t ih =>
    rw [List.countP_cons]
    rcases List.mem_cons.mp hm with h | h
    · subst h
      have hnot : v ∉ t := (List.nodup_cons.mp hnd).1
      have : t.countP (fun x => decide (x = v)) = 0 := by
        rw [List.countP_eq_zero]
        intro x hx
        simp only [decide_eq_true_eq]
        intro he
        exact hnot (he ▸ hx)
      simp [this]
    · have := ih (List.nodup_cons.mp hnd).2 h
      have ha : a ≠ v := by
        intro he
        exact (List.nodup_cons.mp hnd).1 (he ▸ h)
      simp [this, ha]

theorem getD_map_range {α : Type} (f : Nat → α) (n j : Nat) (d : α) :
    ((List.range n).map f).getD j d = if j < n then f j else d := by
  rw [List.getD_eq_getElem?_getD, List.getElem?_map]
  by_cases h : j < n
  · rw [List.getElem?_range h]
    simp [h]
  · rw [List.getElem?_eq_none (by simpa using h)]
    simp [h]

theorem lookupCol_append (ps qs : List (String × ColS)) (c : String) :
    lookupCol (ps ++ qs) c =
      match lookupCol ps c with
      | some v => some v
      | none => lookupCol qs c := by
  induction ps with
  | nil => rfl
  | cons p t ih =>
    by_cases h : p.1 = c <;> simp [lookupCol, h, ih]

theorem lookupCol_map_set (ps : List (String × ColS)) (c : String) (v : ColS)
    (h : (lookupCol ps c).isSome = true) :
    lookupCol (ps.map (fun p => if p.1 = c then (c, v) else p)) c = some v := by
  induction ps with
  | nil => simp [lookupCol] at h
  | cons p t ih =>
    by_cases hp : p.1 = c
    · simp [lookupCol, hp]
    · simp only [lookupCol, if_neg hp] at h
      simp only [List.map_cons, if_neg hp, lookupCol]
      exact ih h

theorem lookupCol_map_set_ne (ps : List (String × ColS)) (c c' : String)
    (v : ColS) (h : c ≠ c') :
    lookupCol (ps.map (fun p => if p.1 = c then (c, v) else p)) c' =
      lookupCol ps c' := by
  induction ps with
  | nil => rfl
  | cons p t ih =>
    by_cases hp : p.1 = c
    · rw [List.map_cons, if_pos hp]
      simp only [lookupCol]
      rw [if_neg h, if_neg (show ¬p.1 = c' by rw [hp]; exact h), ih]
    · simp only [List.map_cons, if_neg hp, lookupCol, ih]

theorem getCol_setCol_self (f : Frame) (c : String) (v : ColS) :
    (f.setCol c v).getCol c = some v := by
  unfold Frame.setCol Frame.getCol
  by_cases h : (lookupCol f.data c).isSome
  · rw [if_pos h]
    exact lookupCol_map_set f.data c v h
  · rw [if_neg h]
    rw [lookupCol_append]
    have hn : lookupCol f.data c = none := by
      cases hx : lookupCol f.data c
      · rfl
      · rw [hx] at h
        simp at h
    rw [hn]
    simp [lookupCol]

theorem getCol_setCol_ne (f : Frame) (c c' : String) (v : ColS)
    (h : c ≠ c') : (f.setCol c v).getCol c' = f.getCol c' := by
  unfold Frame.setCol Frame.getCol
  by_cases hs : (lookupCol f.data c).isSome
  · rw [if_pos hs]
    exact lookupCol_map_set_ne f.data c c' v h
  · rw [if_neg hs, lookupCol_append]
    cases hx : lookupCol f.data c'
    · simp [lookupCol, h]
    · rfl

theorem hasCol_setCol_ne (f : Frame) (c c' : String) (v : ColS)
    (h : c ≠ c') : (f.setCol c v).hasCol c' = f.hasCol c' := by
  unfold Frame.hasCol
  have := getCol_setCol_ne f c c' v h
  unfold Frame.getCol at this
  rw [this]

theorem colD_setCol_ne (f : Frame) (c c' : String) (v : ColS)
    (h : c ≠ c') : (f.setCol c v).colD c' = f.colD c' := by
  unfold Frame.colD
  rw [getCol_setCol_ne f c c' v h]

theorem hasCol_setCol_self (f : Frame) (c : String) (v : ColS) :
    (f.setCol c v).hasCol c = true := by
  unfold Frame.hasCol
  have h := getCol_setCol_self f c v
  unfold Frame.getCol at h
  rw [h]
  rfl

theorem colD_eq_of_getCol {f : Frame} {c : String} {v : ColS}
    (h : f.getCol c = some v) : f.colD c = v := by
  unfold Frame.colD
  rw [h]
  rfl

theorem and_eq_true_split {a b : Bool} (h : (a && b) = true) :
    a = true ∧ b = true := by
  simp only [Bool.and_eq_true] at h
  exact h

theorem getCol_addNetAux_ne (g : Frame) (n lc sc c : String) (h : n ≠ c) :
    (addNetAux g n lc sc).getCol c = g.getCol c := by
  unfold addNetAux
  by_cases hg : (g.hasCol lc && g.hasCol sc) = true
  · rw [if_pos hg]
    exact getCol_setCol_ne g n c _ h
  · rw [if_neg hg]

theorem hasCol_addNetAux_ne (g : Frame) (n lc sc c : String) (h : n ≠ c) :
    (addNetAux g n lc sc).hasCol c = g.hasCol c := by
  unfold Frame.hasCol
  have := getCol_addNetAux_ne g n lc sc c h
  unfold Frame.getCol at this
  rw [this]

theorem colD_addNetAux_ne (g : Frame) (n lc sc c : String) (h : n ≠ c) :
    (addNetAux g n lc sc).colD c = g.colD c := by
  unfold Frame.colD
  rw [getCol_addNetAux_ne g n lc sc c h]

theorem getCol_addNetAux_self (g : Frame) (n lc sc : String)
    (hg : (g.hasCol lc && g.hasCol sc) = true) :
    (addNetAux g n lc sc).getCol n =
      some (colSub (g.colD lc) (g.colD sc)) := by
  unfold addNetAux
  rw [if_pos hg]
  exact getCol_setCol_self g n _

theorem lookup_map_self {β : Type} (g : Nat → β) (idx : List Nat) (j : Nat)
    (hj : j ∈ idx) :
    (idx.map (fun k => (k, g k))).lookup j = some (g j) := by
  induction idx with
  | nil => simp at hj
  | cons a t ih =>
    rcases List.mem_cons.mp hj with h | h
    · subst h
      simp [List.lookup]
    · by_cases ha : j = a
      · subst ha
        simp [List.lookup]
      · simp only [List.map_cons, List.lookup, beq_false_of_ne ha]
        exact ih h

theorem getD_isSome_of_all (vs : List Val) (hall : ∀ x ∈ vs, x.isSome = true)
    (j : Nat) (hj : j < vs.length) : (vs.getD j none).isSome = true := by
  rw [List.getD_eq_getElem?_getD, List.getElem?_eq_getElem hj]
  exact hall _ (List.getElem_mem hj)

theorem windowSlice_all_isSome_of (vs : List Val) (w i : Nat)
    (hw : w ≤ i + 1) (hi : i < vs.length)
    (h : ∀ j, j < vs.length → (vs.getD j none).isSome = true) :
    (windowSlice vs w i).all Option.isSome = true := by
  rw [List.all_eq_true]
  intro x hx
  rcases List.mem_map.mp hx with ⟨k, hk, hxe⟩
  have hk' : k < w := List.mem_range.mp hk
  rw [← hxe]
  exact h _ (by omega)

theorem windowSlice_last_mem (vs : List Val) (w i : Nat) (hw1 : 1 ≤ w)
    (hw : w ≤ i + 1) : vs.getD i none ∈ windowSlice vs w i := by
  refine List.mem_map.mpr ⟨w - 1, List.mem_range.mpr (by omega), ?_⟩
  congr 1
  omega

theorem windowSlice_decomp (vs : List Val) (w i : Nat) (hw1 : 1 ≤ w) :
    windowSlice vs w i =
      ((List.range (w - 1)).map (fun k => vs.getD (i + 1 - w + k) none)) ++
        [vs.getD (i + 1 - w + (w - 1)) none] := by
  unfold windowSlice
  have hw' : w = (w - 1) + 1 := by omega
  rw [hw', List.range_succ, List.map_append]
  have hred : w - 1 + 1 - 1 = w - 1 := by omega
  rw [hred]
  rfl

theorem windowSlice_set_decomp (vs : List Val) (w i : Nat) (x : Val)
    (hw1 : 1 ≤ w) (hw : w ≤ i + 1) (hi : i < vs.length) :
    windowSlice (vs.set i x) w i =
      ((List.range (w - 1)).map (fun k => vs.getD (i + 1 - w + k) none)) ++
        [x] := by
  rw [windowSlice_decomp _ w i hw1]
  congr 1
  · apply List.map_congr_left
    intro k hk
    have hk' : k < w - 1 := List.mem_range.mp hk
    exact getD_set_ne' vs i _ x none (by omega)
  · have hidx : i + 1 - w + (w - 1) = i := by omega
    rw [hidx, getD_set_self' vs i x none hi]

theorem rollRank_eq (vs : List Val) (w i : Nat) (hw : w ≤ i + 1) (v : ℚ)
    (hv : vs.getD i none = some v)
    (hall : (windowSlice vs w i).all Option.isSome = true) :
    rollRank vs w i =
      some (round1 (rankAvg (windowSlice vs w i).reduceOption v /
        (w : ℚ) * 100)) := by
  unfold rollRank
  rw [if_neg (by omega)]
  simp only [hall, if_true, hv]

theorem rollRank_none_of_short (vs : List Val) (w i : Nat)
    (hw : i + 1 < w) : rollRank vs w i = none := by
  unfold rollRank
  rw [if_pos hw]

theorem rankAvg_append (front : List ℚ) (v : ℚ) :
    rankAvg (front ++ [v]) v =
      ((front.countP (fun x => decide (x < v)) : ℚ) +
        (front.countP (fun x => decide (x = v)) : ℚ) / 2) + 1 := by
  unfold rankAvg
  rw [List.countP_append, List.countP_append]
  have h1 : ([v].countP (fun x => decide (x < v))) = 0 := by simp
  have h2 : ([v].countP (fun x => decide (x = v))) = 1 := by simp
  rw [h1, h2]
  push_cast
  ring

theorem contribPair_mono (a v v' : ℚ) (h : v ≤ v') :
    ((if a < v then (1 : ℚ) else 0) + (if a = v then (1 : ℚ) else 0) / 2) ≤
      ((if a < v' then (1 : ℚ) else 0) +
        (if a = v' then (1 : ℚ) else 0) / 2) := by
  rcases eq_or_lt_of_le h with he | hlt
  · subst he
    exact le_refl _
  · split_ifs <;> linarith

theorem countPair_mono (l : List ℚ) {v v' : ℚ} (h : v ≤ v') :
    (l.countP (fun x => decide (x < v)) : ℚ) +
        (l.countP (fun x => decide (x = v)) : ℚ) / 2 ≤
      (l.countP (fun x => decide (x < v')) : ℚ) +
        (l.countP (fun x => decide (x = v')) : ℚ) / 2 := by
  induction l with
  | nil => simp
  | cons a t ih =>
    rw [List.countP_cons, List.countP_cons, List.countP_cons, List.countP_cons]
    have hc := contribPair_mono a v v' h
    push_cast [apply_ite (fun n : ℕ => (n : ℚ)), decide_eq_true_eq]
    push_cast [apply_ite (fun n : ℕ => (n : ℚ)), decide_eq_true_eq] at ih
    linarith

theorem rollRank_mono_set (vs : List Val) (w i : Nat) (v v' : ℚ)
    (hw1 : 1 ≤ w) (hv : vs.getD i none = some v) (hle : v ≤ v') :
    optLe (rollRank vs w i) (rollRank (vs.set i (some v')) w i) := by
  have hi : i < vs.length := lt_length_of_getD_some hv
  by_cases hwin : i + 1 < w
  · rw [rollRank_none_of_short _ _ _ hwin, rollRank_none_of_short _ _ _ hwin]
    trivial
  · have hw : w ≤ i + 1 := by omega
    have hd1 := windowSlice_decomp vs w i hw1
    have hidx : i + 1 - w + (w - 1) = i := by omega
    rw [hidx, hv] at hd1
    have hd2 := windowSlice_set_decomp vs w i (some v') hw1 hw hi
    by_cases hall :
        ((List.range (w - 1)).map
          (fun k => vs.getD (i + 1 - w + k) none)).all Option.isSome = true
    · have hall1 : (windowSlice vs w i).all Option.isSome = true := by
        rw [hd1, List.all_append, hall]
        simp
      have hall2 :
          (windowSlice (vs.set i (some v')) w i).all Option.isSome = true := by
        rw [hd2, List.all_append, hall]
        simp
      have hv2 : (vs.set i (some v')).getD i none = some v' :=
        getD_set_self' vs i _ none hi
      rw [rollRank_eq vs w i hw v hv hall1,
        rollRank_eq _ w i hw v' hv2 hall2]
      show round1 _ ≤ round1 _
      apply round1_mono
      rw [hd1, hd2, List.reduceOption_append, List.reduceOption_append]
      simp only [List.reduceOption_cons_of_some, List.reduceOption_nil]
      rw [rankAvg_append, rankAvg_append]
      have hmono :=
        countPair_mono ((List.range (w - 1)).map
          (fun k => vs.getD (i + 1 - w + k) none)).reduceOption hle
      have hw0 : (0 : ℚ) < (w : ℚ) := by
        exact_mod_cast Nat.lt_of_lt_of_le Nat.zero_lt_one hw1
      have h1 := add_le_add_right hmono 1
      have h2 := (div_le_div_iff_of_pos_right hw0).mpr h1
      exact mul_le_mul_of_nonneg_right h2 (by norm_num)
    · have hfront :
          ((List.range (w - 1)).map
            (fun k => vs.getD (i + 1 - w + k) none)).all Option.isSome =
            false := Bool.eq_false_iff.mpr hall
      have hall1 : (windowSlice vs w i).all Option.isSome = false := by
        rw [hd1, List.all_append, hfront, Bool.false_and]
      have hall2 :
          (windowSlice (vs.set i (some v')) w i).all Option.isSome = false := by
        rw [hd2, List.all_append, hfront, Bool.false_and]
      unfold rollRank
      simp only [if_neg hwin, hall1, hall2, Bool.false_eq_true, if_false]
      trivial

theorem rollRank_count_nodup (vs : List Val) (w i : Nat) (hw1 : 1 ≤ w)
    (hw : w ≤ i + 1) (v : ℚ) (hv : vs.getD i none = some v)
    (hall : (windowSlice vs w i).all Option.isSome = true)
    (hnd : (windowSlice vs w i).reduceOption.Nodup) :
    rollRank vs w i =
      some (round1 (100 *
        ((windowSlice vs w i).reduceOption.countP
          (fun x => decide (x ≤ v)) : ℚ) / (w : ℚ))) := by
  rw [rollRank_eq vs w i hw v hv hall]
  congr 1
  have hm : v ∈ (windowSlice vs w i).reduceOption := by
    rw [List.reduceOption_mem_iff, ← hv]
    exact windowSlice_last_mem vs w i hw1 hw
  have hEq := countP_eq_one_of_nodup_mem hnd hm
  have hSplit := countP_le_split (windowSlice vs w i).reduceOption v
  unfold rankAvg
  rw [hSplit, hEq]
  push_cast
  ring_nf

theorem jan1_le_iff (y : Nat) (d : Date) : Date.le (jan1 y) d ↔ y ≤ d.year := by
  unfold jan1 Date.le
  simp only
  omega

theorem countP_zip_third (ds : List Date) (vs : List Val) (cs : List FV)
    (p : FV → Bool) (h1 : ds.length = vs.length)
    (h2 : vs.length = cs.length) :
    (ds.zip (vs.zip cs)).countP (fun t => p t.2.2) = cs.countP p := by
  induction ds generalizing vs cs with
  | nil =>
    have hc : cs = [] := by
      apply List.eq_nil_of_length_eq_zero
      simp only [List.length_nil] at h1
      omega
    subst hc
    rfl
  | cons d dt ih =>
    cases vs with
    | nil => simp at h1
    | cons v vt =>
      cases cs with
      | nil => simp at h2
      | cons c ct =>
        simp only [List.zip_cons_cons, List.countP_cons]
        rw [ih vt ct (by simpa using h1) (by simpa using h2)]

theorem length_annsForCol (w : WinCol) (h1 : w.dates.length = w.vals.length)
    (h2 : w.vals.length = w.cpcts.length) :
    (annsForCol w).length = w.cpcts.countP notNan := by
  unfold annsForCol
  rw [length_filterMap_eq_countP]
  have hp : ∀ t : Date × Val × FV,
      ((match t.2.2 with
        | FV.nan => none
        | c => some (Ann.point t.1 t.2.1 c)).isSome) = notNan t.2.2 := by
    intro t
    cases t.2.2 <;> rfl
  calc (w.dates.zip (w.vals.zip w.cpcts)).countP
        (fun t => (match t.2.2 with
          | FV.nan => none
          | c => some (Ann.point t.1 t.2.1 c)).isSome) =
      (w.dates.zip (w.vals.zip w.cpcts)).countP (fun t => notNan t.2.2) := by
        apply List.countP_congr
        intro t _
        rw [hp t]
    _ = w.cpcts.countP notNan := countP_zip_third _ _ _ _ h1 h2

theorem pctChangeAt_eq (vs : List Val) (i : Nat) (h0 : i ≠ 0) :
    pctChangeAt vs i =
      match vs.getD (i - 1) none, vs.getD i none with
      | some p, some c =>
        if p = 0 then
          if 0 < c then FV.inf else if c < 0 then FV.ninf else FV.nan
        else FV.num (round1 ((c / p - 1) * 100))
      | _, _ => FV.nan := by
  unfold pctChangeAt
  rw [if_neg h0]

/-- Claim C3 (counterexample).  The claim says `_change_pct` is
undefined whenever the prior value is zero, "never an infinite or other
numeric value".  On the series `[0, 5]` the code computes `5 / 0 - 1`
in floating point and stores `+inf`, which is NOT NaN (and is printed
as a number downstream), so the claim is false at this input. -/
theorem C3_counterexample :
    pctChangeAt [some 0, some 5] 1 = FV.inf ∧ FV.inf ≠ FV.nan := by
  constructor
  · rfl
  · intro h
    cases h

/-- Claim C3 (amended).  For a forward-filled column (a defined cell is
never followed by a missing one) and `i < length`: `_change_pct` at `i`
is NaN exactly when `i = 0`, the prior value is missing, or the prior
and current values are both zero; when the prior value is a nonzero `p`
and the current value is `c`, it equals `(c / p - 1) * 100` rounded to
one decimal; and when the prior value is zero with current value `c`,
it is `+inf` for `c > 0`, `-inf` for `c < 0` and NaN for `c = 0` —
never any other numeric value. -/
theorem C3_change_pct_amended (vs : List Val) (i : Nat)
    (hi : i < vs.length)
    (hff : ∀ j, j + 1 < vs.length → (vs.getD j none).isSome = true →
      (vs.getD (j + 1) none).isSome = true) :
    (pctChangeAt vs i = FV.nan ↔
      (i = 0 ∨ vs.getD (i - 1) none = none ∨
        (vs.getD (i - 1) none = some 0 ∧ vs.getD i none = some 0))) ∧
    (∀ p c, i ≠ 0 → vs.getD (i - 1) none = some p →
      vs.getD i none = some c → p ≠ 0 →
      pctChangeAt vs i = FV.num (round1 ((c / p - 1) * 100))) ∧
    (∀ c, i ≠ 0 → vs.getD (i - 1) none = some 0 →
      vs.getD i none = some c →
      pctChangeAt vs i =
        if 0 < c then FV.inf else if c < 0 then FV.ninf else FV.nan) := by
  refine ⟨⟨?_, ?_⟩, ?_, ?_⟩
  · intro hnan
    by_cases h0 : i = 0
    · exact Or.inl h0
    · cases hp : vs.getD (i - 1) none with
      | none => exact Or.inr (Or.inl rfl)
      | some p =>
        cases hc : vs.getD i none with
        | none =>
          have hs : (vs.getD (i - 1 + 1) none).isSome = true :=
            hff (i - 1) (by omega) (by rw [hp]; rfl)
          rw [show i - 1 + 1 = i by omega, hc] at hs
          simp at hs
        | some c =>
          rw [pctChangeAt_eq vs i h0, hp, hc] at hnan
          by_cases hp0 : p = 0
          · subst hp0
            rcases lt_trichotomy c 0 with h | h | h
            · simp [not_lt_of_lt h, h] at hnan
            · subst h
              exact Or.inr (Or.inr ⟨rfl, rfl⟩)
            · simp [h] at hnan
          · simp [hp0] at hnan
  · intro hcase
    rcases hcase with h0 | hnone | ⟨hp, hc⟩
    · unfold pctChangeAt
      rw [if_pos h0]
    · by_cases h0 : i = 0
      · unfold pctChangeAt
        rw [if_pos h0]
      · rw [pctChangeAt_eq vs i h0, hnone]
    · by_cases h0 : i = 0
      · unfold pctChangeAt
        rw [if_pos h0]
      · rw [pctChangeAt_eq vs i h0, hp, hc]
        simp
  · intro p c h0 hp hc hpz
    rw [pctChangeAt_eq vs i h0, hp, hc]
    simp [hpz]
  · intro c h0 hp hc
    rw [pctChangeAt_eq vs i h0, hp, hc]
    simp

/-- Claim C3 (witness).  On the series `[1, 2]` the amended theorem
applies and yields the numeric percent change at index 1. -/
theorem C3_witness :
    pctChangeAt [some 1, some 2] 1 =
      FV.num (round1 ((2 / 1 - 1) * 100)) :=
  (C3_change_pct_amended [some 1, some 2] 1 (by norm_num)
    (by
      intro j hj hs
      simp only [List.length_cons, List.length_nil] at hj
      have hj0 : j = 0 := by omega
      subst hj0
      rfl)).2.1 1 2 (by norm_num) rfl rfl (by norm_num)

/-- Claim C7.  For a series with no missing values: when the series has
fewer than 260 records `_pct_5yr` is undefined at every index; when it
has at least 260 records, `_pct_5yr` at an index `i` of the series is
defined exactly when `i ≥ 259` (0-based) — a window shorter than
required yields an undefined rank, never zero or an extrapolated
value. -/
theorem C7_pct5yr_defined (vs : List Val)
    (hall : ∀ x ∈ vs, x.isSome = true) :
    (vs.length < 260 → ∀ i, pct5yr vs i = none) ∧
    (260 ≤ vs.length → ∀ i, i < vs.length →
      ((pct5yr vs i).isSome = true ↔ 259 ≤ i)) := by
  constructor
  · intro hlen i
    unfold pct5yr
    rw [if_neg (by omega)]
  · intro hlen i hi
    unfold pct5yr
    rw [if_pos hlen]
    constructor
    · intro hs
      by_contra hlt
      rw [rollRank_none_of_short vs 260 i (by omega)] at hs
      simp at hs
    · intro h259
      have hwin : (windowSlice vs 260 i).all Option.isSome = true :=
        windowSlice_all_isSome_of vs 260 i (by omega) hi
          (fun j hj => getD_isSome_of_all vs hall j hj)
      have hv : ∃ v, vs.getD i none = some v := by
        have hsome := getD_isSome_of_all vs hall i hi
        cases hx : vs.getD i none
        · rw [hx] at hsome
          simp at hsome
        · exact ⟨_, rfl⟩
      rcases hv with ⟨v, hv⟩
      rw [rollRank_eq vs 260 i (by omega) v hv hwin]
      rfl

/-- Claim C7 (witness).  A 10-record all-defined series has `_pct_5yr`
undefined at index 3; a 300-record all-defined series has it defined at
index 259. -/
theorem C7_witness :
    pct5yr (List.replicate 10 (some 1)) 3 = none ∧
    (pct5yr (List.replicate 300 (some 1)) 259).isSome = true := by
  constructor
  · exact (C7_pct5yr_defined (List.replicate 10 (some 1))
      (fun x hx => by rw [List.eq_of_mem_replicate hx]; rfl)).1
      (by norm_num [List.length_replicate]) 3
  · exact ((C7_pct5yr_defined (List.replicate 300 (some 1))
      (fun x hx => by rw [List.eq_of_mem_replicate hx]; rfl)).2
      (by norm_num [List.length_replicate]) 259
      (by norm_num [List.length_replicate])).mpr (by norm_num)

/-- Claim C5.  Derived fields are computed over the full series before
windowing, so a record's derived fields inside the selected range are
those of the full series, and two different selected ranges agree on
every shared record: looking up record `j` in either windowed view
returns exactly `enrichAt` of the FULL series at `j`. -/
theorem C5_window_stable (ds : List Date) (vs : List Val)
    (s e s' e' : Date) (j : Nat)
    (h1 : j ∈ windowIdx ds s e) (h2 : j ∈ windowIdx ds s' e') :
    (windowedEnriched ds vs s e).lookup j = some (enrichAt ds vs j) ∧
    (windowedEnriched ds vs s' e').lookup j = some (enrichAt ds vs j) :=
  ⟨lookup_map_self (enrichAt ds vs) (windowIdx ds s e) j h1,
    lookup_map_self (enrichAt ds vs) (windowIdx ds s' e') j h2⟩

/-- Claim C5 (witness).  A three-record series, two overlapping ranges,
record 1 lies in both: both windowed views return the full-series
enrichment of record 1. -/
theorem C5_witness :
    (windowedEnriched [⟨2024, 0⟩, ⟨2024, 7⟩, ⟨2024, 14⟩]
        [some 1, some 2, some 3] ⟨2024, 0⟩ ⟨2024, 7⟩).lookup 1 =
      some (enrichAt [⟨2024, 0⟩, ⟨2024, 7⟩, ⟨2024, 14⟩]
        [some 1, some 2, some 3] 1) ∧
    (windowedEnriched [⟨2024, 0⟩, ⟨2024, 7⟩, ⟨2024, 14⟩]
        [some 1, some 2, some 3] ⟨2024, 7⟩ ⟨2024, 14⟩).lookup 1 =
      some (enrichAt [⟨2024, 0⟩, ⟨2024, 7⟩, ⟨2024, 14⟩]
        [some 1, some 2, some 3] 1) :=
  C5_window_stable [⟨2024, 0⟩, ⟨2024, 7⟩, ⟨2024, 14⟩]
    [some 1, some 2, some 3] ⟨2024, 0⟩ ⟨2024, 7⟩ ⟨2024, 7⟩ ⟨2024, 14⟩ 1
    (by decide) (by decide)

/-- Claim C9.  The trailing percentile-rank fields are monotone in the
observed value: replacing the value at index `i` by a larger one while
holding every other cell fixed never decreases the computed
260-, 104-, or 52-record rank (undefined cells stay undefined). -/
theorem C9_rank_monotone (vs : List Val) (i : Nat) (v v' : ℚ)
    (hv : vs.getD i none = some v) (hle : v ≤ v') :
    optLe (pct5yr vs i) (pct5yr (vs.set i (some v')) i) ∧
    optLe (pct2yr vs i) (pct2yr (vs.set i (some v')) i) ∧
    optLe (pct1yr vs i) (pct1yr (vs.set i (some v')) i) := by
  have hlen : (vs.set i (some v')).length = vs.length := List.length_set vs i _
  refine ⟨?_, ?_, ?_⟩
  · unfold pct5yr
    rw [hlen]
    by_cases hl : 260 ≤ vs.length
    · rw [if_pos hl, if_pos hl]
      exact rollRank_mono_set vs 260 i v v' (by norm_num) hv hle
    · rw [if_neg hl, if_neg hl]
      trivial
  · unfold pct2yr
    rw [hlen]
    by_cases hl : 104 ≤ vs.length
    · rw [if_pos hl, if_pos hl]
      exact rollRank_mono_set vs 104 i v v' (by norm_num) hv hle
    · rw [if_neg hl, if_neg hl]
      trivial
  · unfold pct1yr
    rw [hlen]
    by_cases hl : 52 ≤ vs.length
    · rw [if_pos hl, if_pos hl]
      exact rollRank_mono_set vs 52 i v v' (by norm_num) hv hle
    · rw [if_neg hl, if_neg hl]
      trivial

/-- Claim C9 (witness).  Concrete instance on a 52-record series: the
1-year rank at the last index is defined on both sides and does not
decrease; the 2- and 5-year ranks are undefined on both sides. -/
theorem C9_witness :
    optLe (pct5yr (List.replicate 51 (some (0 : ℚ)) ++ [some 1]) 51)
      (pct5yr ((List.replicate 51 (some (0 : ℚ)) ++ [some 1]).set 51
        (some 2)) 51) ∧
    optLe (pct2yr (List.replicate 51 (some (0 : ℚ)) ++ [some 1]) 51)
      (pct2yr ((List.replicate 51 (some (0 : ℚ)) ++ [some 1]).set 51
        (some 2)) 51) ∧
    optLe (pct1yr (List.replicate 51 (some (0 : ℚ)) ++ [some 1]) 51)
      (pct1yr ((List.replicate 51 (some (0 : ℚ)) ++ [some 1]).set 51
        (some 2)) 51) :=
  C9_rank_monotone (List.replicate 51 (some (0 : ℚ)) ++ [some 1]) 51 1 2 rfl
    (by norm_num)

/-- Claim C2 (counterexample).  The claim says the annotation-building
step returns an EMPTY list when the period count exceeds 90.  With one
selected column of 91 windowed records the code instead produces a
singleton list holding the hidden explanatory annotation. -/
theorem C2_counterexample :
    buildAnnotations
        [⟨(List.range 91).map (fun k => ⟨2024, k⟩),
          List.replicate 91 (some 1),
          FV.nan :: List.replicate 90 (FV.num 0)⟩] 91 =
      [Ann.explanation] ∧
    ([Ann.explanation] : List Ann) ≠ [] := by
  constructor
  · rfl
  · intro h
    cases h

/-- Claim C2 (amended).  When the period count exceeds 90 the
annotation list is the singleton hidden explanatory annotation (not an
empty list); when it is at most 90 there is exactly one annotation per
(selected column, record) pair whose `_change_pct` cell is non-NaN —
not per pair with a non-missing value: records whose percent change is
undefined (e.g. the first record of the series) get no annotation even
when their value is present. -/
theorem C2_annotations_amended (cols : List WinCol) (n : Nat)
    (hlen : ∀ w ∈ cols, w.dates.length = w.vals.length ∧
      w.vals.length = w.cpcts.length) :
    (90 < n → buildAnnotations cols n = [Ann.explanation]) ∧
    (n ≤ 90 → (buildAnnotations cols n).length =
      (cols.map (fun w => w.cpcts.countP notNan)).sum) := by
  constructor
  · intro h
    unfold buildAnnotations
    rw [if_neg (by omega)]
  · intro h
    unfold buildAnnotations
    rw [if_pos h, List.length_flatten, List.map_map]
    congr 1
    apply List.map_congr_left
    intro w hw
    exact length_annsForCol w (hlen w hw).1 (hlen w hw).2

/-- Claim C2 (witness).  One column, two aligned records, period count
2: the annotation count is the number of non-NaN percent changes. -/
theorem C2_witness :
    (buildAnnotations [⟨[⟨2024, 0⟩, ⟨2024, 7⟩], [some 1, some 2],
        [FV.nan, FV.num 100]⟩] 2).length =
      (([⟨[⟨2024, 0⟩, ⟨2024, 7⟩], [some 1, some 2],
        [FV.nan, FV.num 100]⟩] : List WinCol).map
          (fun w => w.cpcts.countP notNan)).sum :=
  (C2_annotations_amended _ 2 (by decide)).2 (by norm_num)

/-- Claim C1 (counterexample).  The claim says every year's records get
a year-to-date rank computed from the records of that year up to and
including the current one.  On a four-record series spanning 2023-2024:
the second 2023 record (two records so far in 2023, so the claim
requires a defined rank of 100) gets NaN, while the FIRST 2024 record
(only one record so far in 2024, so the claim requires NaN) gets rank
50 — computed against the later 2024 record, i.e. against data dated
after it. -/
theorem C1_counterexample :
    ytdRank exDs exVs 1 = none ∧ ytdRank exDs exVs 2 = some 50 := by
  constructor
  · rfl
  · show some (rankAvg (ytdVals exDs exVs) 3 /
      ((ytdVals exDs exVs).length : ℚ) * 100) = some 50
    have hvals : ytdVals exDs exVs = [3, 4] := rfl
    rw [hvals]
    norm_num [rankAvg, List.countP_cons, List.countP_nil]

/-- Claim C1 (amended).  The code computes the YTD rank only for the
records dated on or after January 1 of the year of the series' maximal
date: any record of an earlier calendar year gets NaN; when fewer than
two records fall in that final span the whole column is NaN; and a
record in the span with a non-missing value is ranked against ALL the
span's non-missing values — including records dated after it — as an
unrounded average-rank percentage. -/
theorem C1_ytd_amended (ds : List Date) (vs : List Val) (i : Nat) :
    ((ds.getD i ⟨0, 0⟩).year < (maxDate ds).year → ytdRank ds vs i = none) ∧
    ((ytdIdx ds).length < 2 → ytdRank ds vs i = none) ∧
    (2 ≤ (ytdIdx ds).length → i ∈ ytdIdx ds → ∀ v,
      vs.getD i none = some v →
      ytdRank ds vs i =
        some (rankAvg (ytdVals ds vs) v /
          ((ytdVals ds vs).length : ℚ) * 100)) := by
  refine ⟨?_, ?_, ?_⟩
  · intro hyear
    unfold ytdRank
    by_cases h2 : 2 ≤ (ytdIdx ds).length
    · rw [if_pos h2, if_neg ?_]
      intro hmem
      have hf := (List.mem_filter.mp hmem).2
      rw [decide_eq_true_iff] at hf
      have := (jan1_le_iff (maxDate ds).year (ds.getD i ⟨0, 0⟩)).mp hf
      omega
    · rw [if_neg h2]
  · intro h2
    unfold ytdRank
    rw [if_neg (by omega)]
  · intro h2 hmem v hv
    unfold ytdRank
    rw [if_pos h2, if_pos hmem, hv]

/-- Claim C1 (witness).  On the concrete two-year series: the first
2023 record gets NaN, and the last 2024 record gets the average-rank
percentage of its value among the 2024 values. -/
theorem C1_witness :
    ytdRank exDs exVs 0 = none ∧
    ytdRank exDs exVs 3 =
      some (rankAvg (ytdVals exDs exVs) 4 /
        ((ytdVals exDs exVs).length : ℚ) * 100) :=
  ⟨(C1_ytd_amended exDs exVs 0).1 (by decide),
    (C1_ytd_amended exDs exVs 3).2.2 (by decide) (by decide) 4 rfl⟩

/-- Claim C4.  For each trailing window W in {260, 104, 52}: when the
series has at least W records, the index has at least W records ending
at it, and the window is fully defined, the rank field equals the
average rank (pandas tie convention) of the value within the window as
a percentage of W, rounded to one decimal; and when the window's values
are pairwise distinct this is exactly 100 * (count of window values ≤
value) / W, rounded to one decimal. -/
theorem C4_trailing_rank (vs : List Val) (i : Nat) (v : ℚ)
    (hv : vs.getD i none = some v) :
    (260 ≤ vs.length → 259 ≤ i →
      (windowSlice vs 260 i).all Option.isSome = true →
      (pct5yr vs i = some (round1 (rankAvg
          (windowSlice vs 260 i).reduceOption v / 260 * 100)) ∧
        ((windowSlice vs 260 i).reduceOption.Nodup →
          pct5yr vs i = some (round1 (100 *
            ((windowSlice vs 260 i).reduceOption.countP
              (fun x => decide (x ≤ v)) : ℚ) / 260))))) ∧
    (104 ≤ vs.length → 103 ≤ i →
      (windowSlice vs 104 i).all Option.isSome = true →
      (pct2yr vs i = some (round1 (rankAvg
          (windowSlice vs 104 i).reduceOption v / 104 * 100)) ∧
        ((windowSlice vs 104 i).reduceOption.Nodup →
          pct2yr vs i = some (round1 (100 *
            ((windowSlice vs 104 i).reduceOption.countP
              (fun x => decide (x ≤ v)) : ℚ) / 104))))) ∧
    (52 ≤ vs.length → 51 ≤ i →
      (windowSlice vs 52 i).all Option.isSome = true →
      (pct1yr vs i = some (round1 (rankAvg
          (windowSlice vs 52 i).reduceOption v / 52 * 100)) ∧
        ((windowSlice vs 52 i).reduceOption.Nodup →
          pct1yr vs i = some (round1 (100 *
            ((windowSlice vs 52 i).reduceOption.countP
              (fun x => decide (x ≤ v)) : ℚ) / 52))))) := by
  refine ⟨?_, ?_, ?_⟩
  · intro hlen hi hall
    constructor
    · unfold pct5yr
      rw [if_pos hlen]
      have h := rollRank_eq vs 260 i (by omega) v hv hall
      rw [h]
      norm_num
    · intro hnd
      unfold pct5yr
      rw [if_pos hlen]
      have h := rollRank_count_nodup vs 260 i (by norm_num) (by omega) v hv
        hall hnd
      rw [h]
      norm_num
  · intro hlen hi hall
    constructor
    · unfold pct2yr
      rw [if_pos hlen]
      have h := rollRank_eq vs 104 i (by omega) v hv hall
      rw [h]
      norm_num
    · intro hnd
      unfold pct2yr
      rw [if_pos hlen]
      have h := rollRank_count_nodup vs 104 i (by norm_num) (by omega) v hv
        hall hnd
      rw [h]
      norm_num
  · intro hlen hi hall
    constructor
    · unfold pct1yr
      rw [if_pos hlen]
      have h := rollRank_eq vs 52 i (by omega) v hv hall
      rw [h]
      norm_num
    · intro hnd
      unfold pct1yr
      rw [if_pos hlen]
      have h := rollRank_count_nodup vs 52 i (by norm_num) (by omega) v hv
        hall hnd
      rw [h]
      norm_num

theorem reduceOption_map_some {α β : Type} (f : α → β) (l : List α) :
    (l.map (fun a => some (f a))).reduceOption = l.map f := by
  induction l with
  | nil => rfl
  | cons a t ih => simp [List.reduceOption_cons_of_some, ih]

theorem exL260_getD (j : Nat) (hj : j < 260) :
    exL260.getD j none = some (j : ℚ) := by
  unfold exL260
  rw [getD_map_range]
  simp [hj]

theorem exL260_window : windowSlice exL260 260 259 = exL260 := by
  unfold windowSlice exL260
  apply List.map_congr_left
  intro k hk
  have hk' : k < 260 := List.mem_range.mp hk
  have hidx : 259 + 1 - 260 + k = k := by omega
  rw [hidx, ← exL260]
  exact exL260_getD k hk'

/-- Claim C4 (witness).  On the 260-record series 0..259 the 5-year
rank at index 259 is given by the distinct-values count formula. -/
theorem C4_witness :
    pct5yr exL260 259 = some (round1 (100 *
      ((windowSlice exL260 260 259).reduceOption.countP
        (fun x => decide (x ≤ (259 : ℚ))) : ℚ) / 260)) :=
  (((C4_trailing_rank exL260 259 259
      (exL260_getD 259 (by norm_num))).1
    (by simp [exL260])
    (by norm_num)
    (by
      apply windowSlice_all_isSome_of exL260 260 259 (by norm_num)
        (by simp [exL260])
      intro j hj
      rw [exL260_getD j (by simpa [exL260] using hj)]
      rfl)).2
    (by
      rw [exL260_window]
      unfold exL260
      rw [reduceOption_map_some (fun k : Nat => (k : ℚ)) (List.range 260)]
      exact (List.nodup_range 260).map Nat.cast_injective))

/-- Claim C8 (counterexample).  The claim keys detection on the
presence of `producer_merchant_processor_user_longs` alone.  A frame
holding that column but no matching `_shorts`, together with both
`commercial` columns, is treated by the code as LEGACY (its
`Commercial Net` is derived from the commercial columns), while the
claim's rule classifies it as Disaggregated. -/
theorem C8_counterexample :
    Frame.hasCol ⟨[("producer_merchant_processor_user_longs", [some 7]),
        ("commercial_longs", [some 10]), ("commercial_shorts", [some 3])]⟩
      "producer_merchant_processor_user_longs" = true ∧
    detectSchema ⟨[("producer_merchant_processor_user_longs", [some 7]),
        ("commercial_longs", [some 10]), ("commercial_shorts", [some 3])]⟩ =
      Schema.legacy ∧
    detectSchemaSpec ⟨[("producer_merchant_processor_user_longs", [some 7]),
        ("commercial_longs", [some 10]), ("commercial_shorts", [some 3])]⟩ =
      Schema.disaggregated ∧
    (addNets ⟨[("producer_merchant_processor_user_longs", [some 7]),
        ("commercial_longs", [some 10]),
        ("commercial_shorts", [some 3])]⟩).getCol "Commercial Net" =
      some (colSub [some 10] [some 3]) :=
  ⟨rfl, rfl, rfl, rfl⟩

/-- Claim C8 (amended).  Detection requires BOTH columns of the pair:
a series is Disaggregated iff both `producer_merchant_processor_user`
columns are present; Legacy iff that fails and both `commercial`
columns are present; otherwise (for a raw frame, i.e. one without a
`Large Speculator Net` column) the frame passes through `addNets`
completely unchanged, with no error. -/
theorem C8_schema_amended (f : Frame)
    (hnoLSN : f.hasCol "Large Speculator Net" = false) :
    (detectSchema f = Schema.disaggregated ↔
      (f.hasCol "producer_merchant_processor_user_longs" &&
        f.hasCol "producer_merchant_processor_user_shorts") = true) ∧
    (detectSchema f = Schema.legacy ↔
      ((f.hasCol "producer_merchant_processor_user_longs" &&
        f.hasCol "producer_merchant_processor_user_shorts") = false ∧
       (f.hasCol "commercial_longs" && f.hasCol "commercial_shorts") =
         true)) ∧
    (detectSchema f = Schema.unknown → addNets f = f) := by
  refine ⟨?_, ?_, ?_⟩
  · unfold detectSchema
    by_cases h1 : (f.hasCol "producer_merchant_processor_user_longs" &&
        f.hasCol "producer_merchant_processor_user_shorts") = true
    · simp [h1]
    · by_cases h2 : (f.hasCol "commercial_longs" &&
          f.hasCol "commercial_shorts") = true <;> simp [h1, h2]
  · unfold detectSchema
    by_cases h1 : (f.hasCol "producer_merchant_processor_user_longs" &&
        f.hasCol "producer_merchant_processor_user_shorts") = true
    · simp [h1]
    · by_cases h2 : (f.hasCol "commercial_longs" &&
          f.hasCol "commercial_shorts") = true <;>
        simp [h1, h2, Bool.eq_false_iff]
  · intro hu
    unfold addNets
    rw [hu]
    simp only [hnoLSN, Bool.and_false, Bool.false_eq_true, if_false]

/-- Claim C8 (witness).  A frame with only an unrecognised column is
detected as unknown and passes through `addNets` unchanged. -/
theorem C8_witness :
    addNets ⟨[("foo", [some 1])]⟩ = ⟨[("foo", [some 1])]⟩ :=
  (C8_schema_amended ⟨[("foo", [some 1])]⟩ rfl).2.2 rfl

/-- Claim C10.  The pipeline sorts by date before forward filling and
deriving, so for a series with pairwise distinct dates any permutation
of the input rows yields the same prepared rows and the same enriched
series as the original order. -/
theorem C10_order_independent (l l' : List RawRow)
    (hperm : l'.Perm l) (hnd : (l.map RawRow.date).Nodup) :
    prepareRows l' = prepareRows l ∧
    ∀ k i, enrichSeries l' k i = enrichSeries l k i := by
  have hsort : sortRows l' = sortRows l := by
    have hp : (sortRows l').Perm (sortRows l) :=
      ((List.perm_insertionSort rowLe l').trans hperm).trans
        (List.perm_insertionSort rowLe l).symm
    have hs1 : List.Sorted rowLe (sortRows l') :=
      List.sorted_insertionSort rowLe l'
    have hs2 : List.Sorted rowLe (sortRows l) :=
      List.sorted_insertionSort rowLe l
    have hnd2 : ((sortRows l).map RawRow.date).Nodup :=
      (List.Perm.nodup_iff
        ((List.perm_insertionSort rowLe l).map RawRow.date)).mpr hnd
    have hnd1 : ((sortRows l').map RawRow.date).Nodup :=
      (List.Perm.nodup_iff (hp.map RawRow.date)).mpr hnd2
    have hne1 : (sortRows l').Pairwise (fun a b => a.date ≠ b.date) :=
      List.pairwise_map.mp hnd1
    have hne2 : (sortRows l).Pairwise (fun a b => a.date ≠ b.date) :=
      List.pairwise_map.mp hnd2
    haveI : IsAntisymm RawRow (fun a b => rowLe a b ∧ a.date ≠ b.date) :=
      ⟨fun a b hab hba => absurd (Date.le_antisymm' hab.1 hba.1) hab.2⟩
    exact List.eq_of_perm_of_sorted hp (hs1.and hne1) (hs2.and hne2)
  have hprep : prepareRows l' = prepareRows l := by
    unfold prepareRows
    rw [hsort]
  refine ⟨hprep, fun k i => ?_⟩
  unfold enrichSeries
  rw [hprep]

/-- Claim C6.  Under a recognised schema with the speculator pair
present, `Large Speculator Net` is the speculator category's longs
minus shorts, with `spreading` additionally subtracted exactly when the
`spreading` column is present (absence means no subtraction, i.e.
spreading treated as 0); and `spreading` is subtracted from no other
derived Net column — `Commercial Net`, `Other Reportables Net`,
`Swap Dealer Net` and `Small Speculator Net` are always the plain
long-minus-short differences of their own columns. -/
theorem C6_large_spec_net (f : Frame) :
    ((f.hasCol "money_manager_longs" && f.hasCol "money_manager_shorts") =
        true →
      detectSchema f = Schema.disaggregated →
      ((addNets f).getCol "Large Speculator Net" =
        some (if f.hasCol "spreading" = true then
          colSub (colSub (f.colD "money_manager_longs")
            (f.colD "money_manager_shorts")) (f.colD "spreading")
        else
          colSub (f.colD "money_manager_longs")
            (f.colD "money_manager_shorts")) ∧
      (addNets f).getCol "Commercial Net" =
        some (colSub (f.colD "producer_merchant_processor_user_longs")
          (f.colD "producer_merchant_processor_user_shorts")) ∧
      ((f.hasCol "other_reportable_longs" &&
          f.hasCol "other_reportable_shorts") = true →
        (addNets f).getCol "Other Reportables Net" =
          some (colSub (f.colD "other_reportable_longs")
            (f.colD "other_reportable_shorts"))) ∧
      ((f.hasCol "swap_dealer_longs" && f.hasCol "swap_dealer_shorts") =
          true →
        (addNets f).getCol "Swap Dealer Net" =
          some (colSub (f.colD "swap_dealer_longs")
            (f.colD "swap_dealer_shorts"))))) ∧
    ((f.hasCol "non_commercial_longs" &&
        f.hasCol "non_commercial_shorts") = true →
      detectSchema f = Schema.legacy →
      ((addNets f).getCol "Large Speculator Net" =
        some (if f.hasCol "spreading" = true then
          colSub (colSub (f.colD "non_commercial_longs")
            (f.colD "non_commercial_shorts")) (f.colD "spreading")
        else
          colSub (f.colD "non_commercial_longs")
            (f.colD "non_commercial_shorts")) ∧
      (addNets f).getCol "Commercial Net" =
        some (colSub (f.colD "commercial_longs")
          (f.colD "commercial_shorts")) ∧
      ((f.hasCol "non_reportable_longs" &&
          f.hasCol "non_reportable_shorts") = true →
        (addNets f).getCol "Small Speculator Net" =
          some (colSub (f.colD "non_reportable_longs")
            (f.colD "non_reportable_shorts"))))) := by
  constructor
  · intro hmm hsch
    have hmm1 : f.hasCol "money_manager_longs" = true :=
      (and_eq_true_split hmm).1
    have hmm2 : f.hasCol "money_manager_shorts" = true :=
      (and_eq_true_split hmm).2
    set g0 := f.setCol "Commercial Net"
      (colSub (f.colD "producer_merchant_processor_user_longs")
        (f.colD "producer_merchant_processor_user_shorts")) with hg0
    set g1 := addNetAux g0 "Large Speculator Net" "money_manager_longs"
      "money_manager_shorts" with hg1
    set g2 := addNetAux g1 "Other Reportables Net" "other_reportable_longs"
      "other_reportable_shorts" with hg2
    set g3 := addNetAux g2 "Swap Dealer Net" "swap_dealer_longs"
      "swap_dealer_shorts" with hg3
    have hadd : addNets f =
        if (g3.hasCol "spreading" &&
            g3.hasCol "Large Speculator Net") = true then
          g3.setCol "Large Speculator Net"
            (colSub (g3.colD "Large Speculator Net") (g3.colD "spreading"))
        else g3 := by
      unfold addNets
      rw [hsch]
    have hg1e : g1 = g0.setCol "Large Speculator Net"
        (colSub (f.colD "money_manager_longs")
          (f.colD "money_manager_shorts")) := by
      rw [hg1]
      unfold addNetAux
      rw [if_pos (show (g0.hasCol "money_manager_longs" &&
          g0.hasCol "money_manager_shorts") = true by
        rw [hg0,
          hasCol_setCol_ne f "Commercial Net" "money_manager_longs" _
            (by decide),
          hasCol_setCol_ne f "Commercial Net" "money_manager_shorts" _
            (by decide), hmm1, hmm2, Bool.true_and])]
      rw [hg0,
        colD_setCol_ne f "Commercial Net" "money_manager_longs" _
          (by decide),
        colD_setCol_ne f "Commercial Net" "money_manager_shorts" _
          (by decide)]
    have hg1LSN : g1.hasCol "Large Speculator Net" = true := by
      rw [hg1e]
      exact hasCol_setCol_self g0 _ _
    have hg3LSN : g3.hasCol "Large Speculator Net" = true := by
      rw [hg3,
        hasCol_addNetAux_ne g2 "Swap Dealer Net" _ _
          "Large Speculator Net" (by decide),
        hg2,
        hasCol_addNetAux_ne g1 "Other Reportables Net" _ _
          "Large Speculator Net" (by decide)]
      exact hg1LSN
    have hg3spr : g3.hasCol "spreading" = f.hasCol "spreading" := by
      rw [hg3,
        hasCol_addNetAux_ne g2 "Swap Dealer Net" _ _ "spreading" (by decide),
        hg2,
        hasCol_addNetAux_ne g1 "Other Reportables Net" _ _ "spreading"
          (by decide),
        hg1,
        hasCol_addNetAux_ne g0 "Large Speculator Net" _ _ "spreading"
          (by decide),
        hg0,
        hasCol_setCol_ne f "Commercial Net" "spreading" _ (by decide)]
    have hg3getLSN : g3.getCol "Large Speculator Net" =
        some (colSub (f.colD "money_manager_longs")
          (f.colD "money_manager_shorts")) := by
      rw [hg3,
        getCol_addNetAux_ne g2 "Swap Dealer Net" _ _ _ (by decide),
        hg2,
        getCol_addNetAux_ne g1 "Other Reportables Net" _ _ _ (by decide),
        hg1e]
      exact getCol_setCol_self g0 _ _
    have hg3cdLSN : g3.colD "Large Speculator Net" =
        colSub (f.colD "money_manager_longs")
          (f.colD "money_manager_shorts") :=
      colD_eq_of_getCol hg3getLSN
    have hg3cdspr : g3.colD "spreading" = f.colD "spreading" := by
      rw [hg3,
        colD_addNetAux_ne g2 "Swap Dealer Net" _ _ _ (by decide),
        hg2,
        colD_addNetAux_ne g1 "Other Reportables Net" _ _ _ (by decide),
        hg1,
        colD_addNetAux_ne g0 "Large Speculator Net" _ _ _ (by decide),
        hg0,
        colD_setCol_ne f "Commercial Net" "spreading" _ (by decide)]
    have hg3getCN : g3.getCol "Commercial Net" =
        some (colSub (f.colD "producer_merchant_processor_user_longs")
          (f.colD "producer_merchant_processor_user_shorts")) := by
      rw [hg3,
        getCol_addNetAux_ne g2 "Swap Dealer Net" _ _ _ (by decide),
        hg2,
        getCol_addNetAux_ne g1 "Other Reportables Net" _ _ _ (by decide),
        hg1,
        getCol_addNetAux_ne g0 "Large Speculator Net" _ _ _ (by decide),
        hg0]
      exact getCol_setCol_self f _ _
    have horn : (f.hasCol "other_reportable_longs" &&
        f.hasCol "other_reportable_shorts") = true →
        g3.getCol "Other Reportables Net" =
          some (colSub (f.colD "other_reportable_longs")
            (f.colD "other_reportable_shorts")) := by
      intro hor
      have hor1 := (and_eq_true_split hor).1
      have hor2 := (and_eq_true_split hor).2
      have hg2e : g2 = g1.setCol "Other Reportables Net"
          (colSub (f.colD "other_reportable_longs")
            (f.colD "other_reportable_shorts")) := by
        rw [hg2]
        unfold addNetAux
        rw [if_pos (show (g1.hasCol "other_reportable_longs" &&
            g1.hasCol "other_reportable_shorts") = true by
          rw [hg1,
            hasCol_addNetAux_ne g0 "Large Speculator Net" _ _
              "other_reportable_longs" (by decide),
            hasCol_addNetAux_ne g0 "Large Speculator Net" _ _
              "other_reportable_shorts" (by decide),
            hg0,
            hasCol_setCol_ne f "Commercial Net" "other_reportable_longs" _
              (by decide),
            hasCol_setCol_ne f "Commercial Net" "other_reportable_shorts" _
              (by decide), hor1, hor2, Bool.true_and])]
        rw [hg1,
          colD_addNetAux_ne g0 "Large Speculator Net" _ _
            "other_reportable_longs" (by decide),
          colD_addNetAux_ne g0 "Large Speculator Net" _ _
            "other_reportable_shorts" (by decide),
          hg0,
          colD_setCol_ne f "Commercial Net" "other_reportable_longs" _
            (by decide),
          colD_setCol_ne f "Commercial Net" "other_reportable_shorts" _
            (by decide)]
      rw [hg3,
        getCol_addNetAux_ne g2 "Swap Dealer Net" _ _ _ (by decide),
        hg2e]
      exact getCol_setCol_self g1 _ _
    have hsdn : (f.hasCol "swap_dealer_longs" &&
        f.hasCol "swap_dealer_shorts") = true →
        g3.getCol "Swap Dealer Net" =
          some (colSub (f.colD "swap_dealer_longs")
            (f.colD "swap_dealer_shorts")) := by
      intro hsw
      have hsw1 := (and_eq_true_split hsw).1
      have hsw2 := (and_eq_true_split hsw).2
      have hg3e : g3 = g2.setCol "Swap Dealer Net"
          (colSub (f.colD "swap_dealer_longs")
            (f.colD "swap_dealer_shorts")) := by
        rw [hg3]
        unfold addNetAux
        rw [if_pos (show (g2.hasCol "swap_dealer_longs" &&
            g2.hasCol "swap_dealer_shorts") = true by
          rw [hg2,
            hasCol_addNetAux_ne g1 "Other Reportables Net" _ _
              "swap_dealer_longs" (by decide),
            hasCol_addNetAux_ne g1 "Other Reportables Net" _ _
              "swap_dealer_shorts" (by decide),
            hg1,
            hasCol_addNetAux_ne g0 "Large Speculator Net" _ _
              "swap_dealer_longs" (by decide),
            hasCol_addNetAux_ne g0 "Large Speculator Net" _ _
              "swap_dealer_shorts" (by decide),
            hg0,
            hasCol_setCol_ne f "Commercial Net" "swap_dealer_longs" _
              (by decide),
            hasCol_setCol_ne f "Commercial Net" "swap_dealer_shorts" _
              (by decide), hsw1, hsw2, Bool.true_and])]
        rw [hg2,
          colD_addNetAux_ne g1 "Other Reportables Net" _ _
            "swap_dealer_longs" (by decide),
          colD_addNetAux_ne g1 "Other Reportables Net" _ _
            "swap_dealer_shorts" (by decide),
          hg1,
          colD_addNetAux_ne g0 "Large Speculator Net" _ _
            "swap_dealer_longs" (by decide),
          colD_addNetAux_ne g0 "Large Speculator Net" _ _
            "swap_dealer_shorts" (by decide),
          hg0,
          colD_setCol_ne f "Commercial Net" "swap_dealer_longs" _
            (by decide),
          colD_setCol_ne f "Commercial Net" "swap_dealer_shorts" _
            (by decide)]
      rw [hg3e]
      exact getCol_setCol_self g2 _ _
    by_cases hs : f.hasCol "spreading" = true
    · have hcond : (g3.hasCol "spreading" &&
          g3.hasCol "Large Speculator Net") = true := by
        rw [hg3spr, hs, hg3LSN, Bool.true_and]
      have haddt : addNets f = g3.setCol "Large Speculator Net"
          (colSub (g3.colD "Large Speculator Net") (g3.colD "spreading")) := by
        rw [hadd, if_pos hcond]
      refine ⟨?_, ?_, ?_, ?_⟩
      · rw [haddt, getCol_setCol_self g3 _ _, hg3cdLSN, hg3cdspr, if_pos hs]
      · rw [haddt,
          getCol_setCol_ne g3 "Large Speculator Net" "Commercial Net" _
            (by decide), hg3getCN]
      · intro hor
        rw [haddt,
          getCol_setCol_ne g3 "Large Speculator Net" "Other Reportables Net"
            _ (by decide)]
        exact horn hor
      · intro hsw
        rw [haddt,
          getCol_setCol_ne g3 "Large Speculator Net" "Swap Dealer Net" _
            (by decide)]
        exact hsdn hsw
    · have hsf : f.hasCol "spreading" = false := Bool.eq_false_iff.mpr hs
      have hcond : (g3.hasCol "spreading" &&
          g3.hasCol "Large Speculator Net") = false := by
        rw [hg3spr, hsf, Bool.false_and]
      have haddf : addNets f = g3 := by
        rw [hadd, hcond]
        simp
      refine ⟨?_, ?_, ?_, ?_⟩
      · rw [haddf, hg3getLSN, if_neg hs]
      · rw [haddf, hg3getCN]
      · intro hor
        rw [haddf]
        exact horn hor
      · intro hsw
        rw [haddf]
        exact hsdn hsw
  · intro hnc hsch
    have hnc1 : f.hasCol "non_commercial_longs" = true :=
      (and_eq_true_split hnc).1
    have hnc2 : f.hasCol "non_commercial_shorts" = true :=
      (and_eq_true_split hnc).2
    set g0 := f.setCol "Commercial Net"
      (colSub (f.colD "commercial_longs") (f.colD "commercial_shorts"))
      with hg0
    set g1 := addNetAux g0 "Large Speculator Net" "non_commercial_longs"
      "non_commercial_shorts" with hg1
    set g2 := addNetAux g1 "Small Speculator Net" "non_reportable_longs"
      "non_reportable_shorts" with hg2
    have hadd : addNets f =
        if (g2.hasCol "spreading" &&
            g2.hasCol "Large Speculator Net") = true then
          g2.setCol "Large Speculator Net"
            (colSub (g2.colD "Large Speculator Net") (g2.colD "spreading"))
        else g2 := by
      unfold addNets
      rw [hsch]
    have hg1e : g1 = g0.setCol "Large Speculator Net"
        (colSub (f.colD "non_commercial_longs")
          (f.colD "non_commercial_shorts")) := by
      rw [hg1]
      unfold addNetAux
      rw [if_pos (show (g0.hasCol "non_commercial_longs" &&
          g0.hasCol "non_commercial_shorts") = true by
        rw [hg0,
          hasCol_setCol_ne f "Commercial Net" "non_commercial_longs" _
            (by decide),
          hasCol_setCol_ne f "Commercial Net" "non_commercial_shorts" _
            (by decide), hnc1, hnc2, Bool.true_and])]
      rw [hg0,
        colD_setCol_ne f "Commercial Net" "non_commercial_longs" _
          (by decide),
        colD_setCol_ne f "Commercial Net" "non_commercial_shorts" _
          (by decide)]
    have hg1LSN : g1.hasCol "Large Speculator Net" = true := by
      rw [hg1e]
      exact hasCol_setCol_self g0 _ _
    have hg2LSN : g2.hasCol "Large Speculator Net" = true := by
      rw [hg2,
        hasCol_addNetAux_ne g1 "Small Speculator Net" _ _
          "Large Speculator Net" (by decide)]
      exact hg1LSN
    have hg2spr : g2.hasCol "spreading" = f.hasCol "spreading" := by
      rw [hg2,
        hasCol_addNetAux_ne g1 "Small Speculator Net" _ _ "spreading"
          (by decide),
        hg1,
        hasCol_addNetAux_ne g0 "Large Speculator Net" _ _ "spreading"
          (by decide),
        hg0,
        hasCol_setCol_ne f "Commercial Net" "spreading" _ (by decide)]
    have hg2getLSN : g2.getCol "Large Speculator Net" =
        some (colSub (f.colD "non_commercial_longs")
          (f.colD "non_commercial_shorts")) := by
      rw [hg2,
        getCol_addNetAux_ne g1 "Small Speculator Net" _ _ _ (by decide),
        hg1e]
      exact getCol_setCol_self g0 _ _
    have hg2cdLSN : g2.colD "Large Speculator Net" =
        colSub (f.colD "non_commercial_longs")
          (f.colD "non_commercial_shorts") :=
      colD_eq_of_getCol hg2getLSN
    have hg2cdspr : g2.colD "spreading" = f.colD "spreading" := by
      rw [hg2,
        colD_addNetAux_ne g1 "Small Speculator Net" _ _ _ (by decide),
        hg1,
        colD_addNetAux_ne g0 "Large Speculator Net" _ _ _ (by decide),
        hg0,
        colD_setCol_ne f "Commercial Net" "spreading" _ (by decide)]
    have hg2getCN : g2.getCol "Commercial Net" =
        some (colSub (f.colD "commercial_longs")
          (f.colD "commercial_shorts")) := by
      rw [hg2,
        getCol_addNetAux_ne g1 "Small Speculator Net" _ _ _ (by decide),
        hg1,
        getCol_addNetAux_ne g0 "Large Speculator Net" _ _ _ (by decide),
        hg0]
      exact getCol_setCol_self f _ _
    have hssn : (f.hasCol "non_reportable_longs" &&
        f.hasCol "non_reportable_shorts") = true →
        g2.getCol "Small Speculator Net" =
          some (colSub (f.colD "non_reportable_longs")
            (f.colD "non_reportable_shorts")) := by
      intro hnr
      have hnr1 := (and_eq_true_split hnr).1
      have hnr2 := (and_eq_true_split hnr).2
      have hg2e : g2 = g1.setCol "Small Speculator Net"
          (colSub (f.colD "non_reportable_longs")
            (f.colD "non_reportable_shorts")) := by
        rw [hg2]
        unfold addNetAux
        rw [if_pos (show (g1.hasCol "non_reportable_longs" &&
            g1.hasCol "non_reportable_shorts") = true by
          rw [hg1,
            hasCol_addNetAux_ne g0 "Large Speculator Net" _ _
              "non_reportable_longs" (by decide),
            hasCol_addNetAux_ne g0 "Large Speculator Net" _ _
              "non_reportable_shorts" (by decide),
            hg0,
            hasCol_setCol_ne f "Commercial Net" "non_reportable_longs" _
              (by decide),
            hasCol_setCol_ne f "Commercial Net" "non_reportable_shorts" _
              (by decide), hnr1, hnr2, Bool.true_and])]
        rw [hg1,
          colD_addNetAux_ne g0 "Large Speculator Net" _ _
            "non_reportable_longs" (by decide),
          colD_addNetAux_ne g0 "Large Speculator Net" _ _
            "non_reportable_shorts" (by decide),
          hg0,
          colD_setCol_ne f "Commercial Net" "non_reportable_longs" _
            (by decide),
          colD_setCol_ne f "Commercial Net" "non_reportable_shorts" _
            (by decide)]
      rw [hg2e]
      exact getCol_setCol_self g1 _ _
    by_cases hs : f.hasCol "spreading" = true
    · have hcond : (g2.hasCol "spreading" &&
          g2.hasCol "Large Speculator Net") = true := by
        rw [hg2spr, hs, hg2LSN, Bool.true_and]
      have haddt : addNets f = g2.setCol "Large Speculator Net"
          (colSub (g2.colD "Large Speculator Net")
            (g2.colD "spreading")) := by
        rw [hadd, if_pos hcond]
      refine ⟨?_, ?_, ?_⟩
      · rw [haddt, getCol_setCol_self g2 _ _, hg2cdLSN, hg2cdspr, if_pos hs]
      · rw [haddt,
          getCol_setCol_ne g2 "Large Speculator Net" "Commercial Net" _
            (by decide), hg2getCN]
      · intro hnr
        rw [haddt,
          getCol_setCol_ne g2 "Large Speculator Net"
            "Small Speculator Net" _ (by decide)]
        exact hssn hnr
    · have hsf : f.hasCol "spreading" = false := Bool.eq_false_iff.mpr hs
      have hcond : (g2.hasCol "spreading" &&
          g2.hasCol "Large Speculator Net") = false := by
        rw [hg2spr, hsf, Bool.false_and]
      have haddf : addNets f = g2 := by
        rw [hadd, hcond]
        simp
      refine ⟨?_, ?_, ?_⟩
      · rw [haddf, hg2getLSN, if_neg hs]
      · rw [haddf, hg2getCN]
      · intro hnr
        rw [haddf]
        exact hssn hnr

/-- Claim C6 (witness).  A legacy frame with speculator longs 100,
shorts 40 and spreading 30 yields Large Speculator Net 30; the same
frame without the spreading column yields 60. -/
theorem C6_witness :
    (addNets ⟨[("commercial_longs", [some 10]),
        ("commercial_shorts", [some 3]),
        ("non_commercial_longs", [some 100]),
        ("non_commercial_shorts", [some 40]),
        ("spreading", [some 30])]⟩).getCol "Large Speculator Net" =
      some [some 30] ∧
    (addNets ⟨[("commercial_longs", [some 10]),
        ("commercial_shorts", [some 3]),
        ("non_commercial_longs", [some 100]),
        ("non_commercial_shorts", [some 40])]⟩).getCol
        "Large Speculator Net" =
      some [some 60] := by
  constructor
  · have h := ((C6_large_spec_net ⟨[("commercial_longs", [some 10]),
        ("commercial_shorts", [some 3]),
        ("non_commercial_longs", [some 100]),
        ("non_commercial_shorts", [some 40]),
        ("spreading", [some 30])]⟩).2 rfl rfl).1
    rw [h]
    show some (colSub (colSub [some 100] [some 40]) [some 30]) =
      some [some 30]
    norm_num [colSub, List.zipWith_cons_cons, List.zipWith_nil_left]
  · have h := ((C6_large_spec_net ⟨[("commercial_longs", [some 10]),
        ("commercial_shorts", [some 3]),
        ("non_commercial_longs", [some 100]),
        ("non_commercial_shorts", [some 40])]⟩).2 rfl rfl).1
    rw [h]
    show some (colSub [some 100] [some 40]) = some [some 60]
    norm_num [colSub, List.zipWith_cons_cons, List.zipWith_nil_left]

/-- Claim C10 (witness).  Swapping two rows with distinct dates yields
the same prepared series as the date-sorted input. -/
theorem C10_witness :
    prepareRows [⟨⟨2024, 7⟩, [some 2]⟩, ⟨⟨2024, 0⟩, [some 1]⟩] =
      prepareRows [⟨⟨2024, 0⟩, [some 1]⟩, ⟨⟨2024, 7⟩, [some 2]⟩] :=
  (C10_order_independent [⟨⟨2024, 0⟩, [some 1]⟩, ⟨⟨2024, 7⟩, [some 2]⟩]
    [⟨⟨2024, 7⟩, [some 2]⟩, ⟨⟨2024, 0⟩, [some 1]⟩]
    (by decide) (by decide)).1

end COT

